import Mathlib

/-!
Verification development for the Harmonica command framework
(argument parser, command registry, dual-path dispatcher).

The definitions below are a shallow embedding of the TypeScript source:
  - src/lib/command.ts      (parseArguments, isStringArray, isNumberArray)
  - src/lib/duration.ts     (Duration.parse, Duration.time)
  - src/lib/util.ts         (enumFromValue)
  - the BotWrapper class    (register, registerCommands, handleMessage,
                             handleSlashInteraction)

Modelling conventions, stated once here:
  - JavaScript numbers are modelled as exact rationals (plus signed
    infinity); rounding of IEEE doubles is not modelled, which is exact
    for every integral value the claims exercise.  NaN is represented by
    Option.none at parse sites, exactly as the isNaN guards treat it.
  - JavaScript string falsiness (undefined or empty string) is modelled
    by the empty string / empty list, matching every use in the source,
    where both falsy cases behave identically.
  - Discord platform objects (users, roles, channels, permission sets)
    are external collaborators; they are modelled by their identifiers
    and by oracle functions carried in the Guild / interaction records.
    Permission .has over a flag resolvable is modelled as membership of
    the flag names in the permission list.
  - Handlers are not modelled; invoking a handler is the observable
    outcome DispatchOutcome.invoked together with the parsed values.
-/

namespace Harmonica

/-! ## Character and string helpers (JS primitives, structural recursion) -/

/-- The whitespace characters relevant to the JS regex class backslash-s and
to String.prototype.trim, restricted to the ASCII ones the repository can
produce. -/
def jsWhitespace (c : Char) : Bool :=
  c = ' ' || c = '\t' || c = '\n' || c = '\r'

/-- List-of-characters prefix test. -/
def chPrefix : List Char → List Char → Bool
  | [], _ => true
  | _ :: _, [] => false
  | a :: as, b :: bs => a = b && chPrefix as bs

/-- Numeric value of an ASCII digit. -/
def digitVal (c : Char) : Nat := c.toNat - 48

/-- Value of a digit string, most significant digit first (JS parseInt on
an all-digit string). -/
def digitsToNat (ds : List Char) : Nat :=
  ds.foldl (fun a c => 10 * a + digitVal c) 0

/-- Array.prototype.join with a single space separator. -/
def joinSpace : List String → String
  | [] => ""
  | [s] => s
  | s :: rest => s ++ " " ++ joinSpace rest

/-- Accumulator for tokenizeWords. -/
def wordsAux : List Char → List Char → List String
  | [], acc => if acc = [] then [] else [String.mk acc.reverse]
  | c :: cs, acc =>
    if jsWhitespace c then
      if acc = [] then wordsAux cs []
      else String.mk acc.reverse :: wordsAux cs []
    else wordsAux cs (c :: acc)

/-- The maximal non-whitespace words of a string, in order.  Equivalent to
the source pipeline replace(whitespace-run, one space) then trim then
split on a single space, except that the JS pipeline represents the empty
result as the singleton list holding the empty string; the dispatcher
model reinstates that case explicitly. -/
def tokenizeWords (cs : List Char) : List String := wordsAux cs []

/-- Drop matching characters from the end of a list. -/
def dropEndWhile (p : Char → Bool) (cs : List Char) : List Char :=
  (cs.reverse.dropWhile p).reverse

/-- String.prototype.trim on a character list. -/
def jsTrimChars (cs : List Char) : List Char :=
  dropEndWhile jsWhitespace (cs.dropWhile jsWhitespace)

/-! ## JS number parsing (parseFloat) -/

/-- A non-NaN JavaScript number: an exact finite value or a signed
infinity. -/
inductive JsNum where
  | fin (q : ℚ)
  | inf (neg : Bool)
deriving DecidableEq

/-- Exponent digits of a parseFloat exponent part, after the sign. -/
def expDigits (neg : Bool) (cs : List Char) : Option (Bool × Nat) :=
  let ds := cs.takeWhile Char.isDigit
  if ds = [] then none else some (neg, digitsToNat ds)

/-- Optional sign of a parseFloat exponent part. -/
def expSign : List Char → Option (Bool × Nat)
  | '+' :: r => expDigits false r
  | '-' :: r => expDigits true r
  | r => expDigits false r

/-- The exponent part of a parseFloat literal ("e" or "E", optional sign,
at least one digit); none when absent or malformed, in which case
parseFloat simply does not consume it. -/
def expPart : List Char → Option (Bool × Nat)
  | 'e' :: rest => expSign rest
  | 'E' :: rest => expSign rest
  | _ => none

/-- Apply a parsed exponent to a mantissa. -/
def applyExp (q : ℚ) : Option (Bool × Nat) → ℚ
  | none => q
  | some (false, n) => q * 10 ^ n
  | some (true, n) => q / 10 ^ n

/-- Value of a fraction digit string. -/
def fracValue (fp : List Char) : ℚ :=
  (digitsToNat fp : ℚ) / 10 ^ fp.length

/-- The decimal mantissa at the head of a character list: digits with an
optional fraction, or a fraction alone; returns the value and the
unconsumed remainder.  none when no mantissa is present (parseFloat NaN
case). -/
def mantissaFrom (cs : List Char) : Option (ℚ × List Char) :=
  let ip := cs.takeWhile Char.isDigit
  let r1 := cs.dropWhile Char.isDigit
  if ip = [] then
    match r1 with
    | '.' :: r2 =>
      let fp := r2.takeWhile Char.isDigit
      if fp = [] then none
      else some (fracValue fp, r2.dropWhile Char.isDigit)
    | _ => none
  else
    match r1 with
    | '.' :: r2 =>
      some ((digitsToNat ip : ℚ) + fracValue (r2.takeWhile Char.isDigit),
            r2.dropWhile Char.isDigit)
    | _ => some ((digitsToNat ip : ℚ), r1)

/-- parseFloat after the optional leading sign has been consumed. -/
def jsParseFloatSigned (neg : Bool) (cs : List Char) : Option JsNum :=
  if chPrefix "Infinity".toList cs then some (.inf neg)
  else
    match mantissaFrom cs with
    | none => none
    | some (m, rest) =>
      let v := applyExp m (expPart rest)
      some (.fin (if neg then -v else v))

/-- JS parseFloat: skip leading whitespace, optional sign, then the
longest decimal (or Infinity) prefix; none models NaN. -/
def jsParseFloat (s : String) : Option JsNum :=
  match s.toList.dropWhile jsWhitespace with
  | '+' :: r => jsParseFloatSigned false r
  | '-' :: r => jsParseFloatSigned true r
  | r => jsParseFloatSigned false r

/-! ## Duration (src/lib/duration.ts) -/

/-- The base periods a duration supports. -/
inductive DurationPeriod where
  | millisecond | second | minute | hour | day | week
deriving DecidableEq

/-- enumFromValue specialised to DurationPeriod: look the enum member up
by its string value. -/
def enumFromValue (v : String) : Option DurationPeriod :=
  if v = "ms" then some .millisecond
  else if v = "s" then some .second
  else if v = "m" then some .minute
  else if v = "h" then some .hour
  else if v = "d" then some .day
  else if v = "w" then some .week
  else none

/-- An immutable quantity/period pair. -/
structure Duration where
  quantity : Nat
  period : DurationPeriod
deriving DecidableEq

/-- Lowercase ASCII letter test (the JS character class a through z). -/
def isLowerAZ (c : Char) : Bool := 'a' ≤ c && c ≤ 'z'

/-- The anchored regex match of caret digits-group letters-group dollar:
one or more digits followed by one or two lowercase letters and nothing
else; returns the two capture groups. -/
def durationSplit (cs : List Char) : Option (List Char × List Char) :=
  let ds := cs.takeWhile Char.isDigit
  let rest := cs.dropWhile Char.isDigit
  if ds = [] then none
  else if rest.all isLowerAZ && (rest.length = 1 || rest.length = 2) then
    some (ds, rest)
  else none

/-- Duration.parse: trim the input, match the quantity/suffix grammar,
resolve the suffix to a period, and read the quantity. The isNaN guard
of the source can never fire because the first capture group is all
digits. -/
def Duration.parse (s : String) : Option Duration :=
  match durationSplit (jsTrimChars s.toList) with
  | none => none
  | some (ds, suf) =>
    match enumFromValue (String.mk suf) with
    | none => none
    | some p => some ⟨digitsToNat ds, p⟩

/-- Milliseconds per period (enumToTime). -/
def periodMs : DurationPeriod → Nat
  | .millisecond => 1
  | .second => 1000
  | .minute => 1000 * 60
  | .hour => 1000 * 60 * 60
  | .day => 1000 * 60 * 60 * 24
  | .week => 1000 * 60 * 60 * 24 * 7

/-- The time getter: total milliseconds represented. -/
def Duration.time (d : Duration) : Nat := periodMs d.period * d.quantity

/-- Written from the wording of the specification, for comparison with
the implementation: a string is accepted exactly when it matches the
anchored grammar caret digits lowercase-letters(1..2) dollar and the
letter suffix resolves to a known period.  Note there is no trimming
here: the spec sentence constrains the string itself. -/
def specDurationGrammar (s : String) : Bool :=
  match durationSplit s.toList with
  | none => false
  | some (_, suf) => (enumFromValue (String.mk suf)).isSome

/-! ## Mention patterns (the anchored regexes of parseArguments) -/

/-- Matches digits-then-closing-angle-and-nothing-else, returning the
digit capture group; shared tail of the three mention regexes. -/
def digitsThenGt (cs : List Char) : Option String :=
  let ds := cs.takeWhile Char.isDigit
  let rest := cs.dropWhile Char.isDigit
  if ds ≠ [] && rest = ['>'] then some (String.mk ds) else none

/-- The user mention regex: left-angle at-sign optional-bang digits
right-angle, anchored; returns the id capture. -/
def userMentionCapture (tok : String) : Option String :=
  match tok.toList with
  | '<' :: '@' :: '!' :: rest => digitsThenGt rest
  | '<' :: '@' :: rest => digitsThenGt rest
  | _ => none

/-- The role mention regex: left-angle at-sign ampersand digits
right-angle, anchored. -/
def roleMentionCapture (tok : String) : Option String :=
  match tok.toList with
  | '<' :: '@' :: '&' :: rest => digitsThenGt rest
  | _ => none

/-- The channel mention regex: left-angle hash digits right-angle,
anchored. -/
def chanMentionCapture (tok : String) : Option String :=
  match tok.toList with
  | '<' :: '#' :: rest => digitsThenGt rest
  | _ => none

/-! ## Data model (src/lib/command.ts) -/

/-- A JS runtime value as it can occur inside a oneOf array: the TS type
says string[] or number[] but nothing re-checks that at the boundary, so
elements of either kind, or booleans, can be present at runtime. -/
inductive JsVal where
  | vstr (s : String)
  | vnum (n : JsNum)
  | vbool (b : Bool)
deriving DecidableEq

/-- isStringArray: every element has typeof string. -/
def isStringArray (arr : List JsVal) : Bool :=
  arr.all fun v => match v with | .vstr _ => true | _ => false

/-- isNumberArray: every element has typeof number. -/
def isNumberArray (arr : List JsVal) : Bool :=
  arr.all fun v => match v with | .vnum _ => true | _ => false

/-- The declarable argument types. -/
inductive ArgumentType where
  | string | number | boolean | duration | user | role | channel
deriving DecidableEq

/-- One element of a command argument schema.  The undefined optional,
rest and oneOf fields are modelled by their falsy defaults (false and
the empty list), which the source treats identically to undefined at
every use site. -/
structure ArgumentDefinition where
  name : String
  description : String
  type : ArgumentType
  optional : Bool := false
  rest : Bool := false
  oneOf : List JsVal := []
deriving DecidableEq

/-- A typed value produced by the argument parser.  Platform objects are
represented by their identifiers. -/
inductive CommandArgument where
  | str (s : String)
  | num (n : JsNum)
  | bool (b : Bool)
  | dur (d : Duration)
  | user (id : String)
  | role (id : String)
  | channel (id : String)
deriving DecidableEq

/-- The three shapes of a userPermissions requirement. -/
inductive UserPermissions where
  | BOT_OWNER
  | GUILD_OWNER
  | flagList (flags : List String)
deriving DecidableEq

/-- A registered command.  The run handler is not modelled (dispatch
outcomes expose the parsed arguments instead); botPermissions undefined
is modelled by the empty list, which the source guards treat the same
way. -/
structure Command where
  name : String
  description : String
  botPermissions : List String := []
  userPermissions : Option UserPermissions := none
  arguments : List ArgumentDefinition := []
  group : Option String := none
deriving DecidableEq

/-- A guild as the dispatcher and parser observe it: its owner, a role
existence oracle, a channel lookup (some isGuildTextChannel when the id
resolves), and the per-channel permission oracle giving the flag names a
user effectively has in a channel. -/
structure Guild where
  ownerID : String
  hasRole : String → Bool
  getChannel : String → Option Bool
  permsFor : String → String → List String

/-- The wrapper state the two dispatch paths read: configuration plus
the command registry and the user-fetch collaborator (modelled as
returning the fetched user, identified by its id; a rejected fetch would
escape the parser as an exception and is not modelled). -/
structure BotWrapper where
  owners : List String
  pfx : String := ""
  botMention : String := ""
  botUserId : String := ""
  fetchUser : String → String := fun id => id
  commands : List (String × Command) := []

/-- Permissions .has with a list of required flags: all must be present. -/
def hasAll (perms : List String) (req : List String) : Bool :=
  req.all fun f => perms.contains f

/-! ## The Argument Parser (parseArguments) -/

/-- The JS truthiness test on args[pointer]: some token when the index is
in range and the token is not the empty string. -/
def tokenAt (args : List String) (p : Nat) : Option String :=
  match args.get? p with
  | none => none
  | some s => if s = "" then none else some s

/-- One iteration body of the parseArguments loop: the value the current
schema entry pushes for the current token, or none when the whole parse
must fail.  Every branch of the source pushes exactly one value and then
increments the pointer once, including the rest branch, which pushes the
join of all tokens from the pointer on. -/
def stepValue (w : BotWrapper) (guild : Option Guild) (args : List String)
    (p : Nat) (d : ArgumentDefinition) (tok : String) :
    Option CommandArgument :=
  match d.type with
  | .string =>
    if d.rest then some (.str (joinSpace (args.drop p)))
    else if d.oneOf ≠ [] && isStringArray d.oneOf then
      if d.oneOf.contains (.vstr tok) then some (.str tok) else none
    else some (.str tok)
  | .number =>
    match jsParseFloat tok with
    | none => none
    | some n =>
      if d.oneOf ≠ [] && isNumberArray d.oneOf then
        if d.oneOf.contains (.vnum n) then some (.num n) else none
      else some (.num n)
  | .boolean =>
    if ["true", "yes", "y", "1"].contains tok then some (.bool true)
    else if ["false", "no", "n", "0"].contains tok then some (.bool false)
    else none
  | .duration =>
    (Duration.parse tok).map .dur
  | .user =>
    (userMentionCapture tok).map fun id => .user (w.fetchUser id)
  | .role =>
    match guild with
    | none => none
    | some g =>
      match roleMentionCapture tok with
      | none => none
      | some id => if g.hasRole id then some (.role id) else none
  | .channel =>
    match guild with
    | none => none
    | some g =>
      match chanMentionCapture tok with
      | none => none
      | some id =>
        match g.getChannel id with
        | some true => some (.channel id)
        | _ => none

/-- The for-loop of parseArguments: walk the schema; stop (returning the
values collected so far) when args[pointer] is falsy; on a failing entry
discard everything; otherwise push the entry value and advance the
pointer by one. -/
def parseLoop (w : BotWrapper) (guild : Option Guild) (args : List String) :
    List ArgumentDefinition → Nat → Option (List CommandArgument)
  | [], _ => some []
  | d :: ds, p =>
    match tokenAt args p with
    | none => some []
    | some tok =>
      match stepValue w guild args p d tok with
      | none => none
      | some v => (parseLoop w guild args ds (p + 1)).map (fun r => v :: r)

/-- parseArguments: empty schema accepts anything with an empty result; a
schema with a required entry rejects an empty token list outright;
otherwise run the loop from pointer zero. -/
def parseArguments (w : BotWrapper) (c : Command) (args : List String)
    (guild : Option Guild) : Option (List CommandArgument) :=
  if c.arguments = [] then some []
  else if c.arguments.filter (fun a => !a.optional) ≠ [] && args = [] then none
  else parseLoop w guild args c.arguments 0

/-! ## Registry maps (JS Map with insertion order) -/

/-- Map.prototype.get on an insertion-ordered association list. -/
def mapGet {V : Type} (m : List (String × V)) (k : String) : Option V :=
  (m.find? fun p => p.1 = k).map fun p => p.2

/-- Map.prototype.has. -/
def mapHas {V : Type} (m : List (String × V)) (k : String) : Bool :=
  m.any fun p => p.1 = k

/-- Map.prototype.set: update in place when the key exists, else append. -/
def mapSet {V : Type} (m : List (String × V)) (k : String) (v : V) :
    List (String × V) :=
  if mapHas m k then m.map fun p => if p.1 = k then (k, v) else p
  else m ++ [(k, v)]

/-! ## Dispatch outcomes -/

/-- The observable result of one dispatch.  crashed models a thrown
TypeError (reading ownerID of an undefined guild on the slash path),
which aborts the dispatch with no user-visible message. -/
inductive DispatchOutcome where
  | ignored
  | botPermissionDenied
  | userPermissionDenied
  | parseFailed
  | crashed
  | invoked (args : List CommandArgument)
deriving DecidableEq

/-- A message event as the text path observes it. -/
structure Message where
  content : String
  authorId : String
  channelID : String := ""
  guild : Option Guild := none

/-- A slash interaction as the slash path observes it.  Option values
are carried in their JS string form (the result of value.toString()),
which is the identity on the id-valued and string options the dispatcher
re-serializes. -/
structure Interaction where
  name : String
  userId : String
  guild : Option Guild := none
  channelPermsFor : String → List String := fun _ => []
  options : List String := []

/-! ## Permission checks -/

/-- The userPermissions value seen as what .has(userPermissions) resolves
on the else branch of the text path: the sentinel strings resolve as a
single flag name, a flag array as itself. -/
def upFlagNames : UserPermissions → List String
  | .BOT_OWNER => ["BOT_OWNER"]
  | .GUILD_OWNER => ["GUILD_OWNER"]
  | .flagList fs => fs

/-- The .length the else branch reads off userPermissions: string length
for the sentinels, array length otherwise. -/
def upLength : UserPermissions → Nat
  | .BOT_OWNER => 9
  | .GUILD_OWNER => 11
  | .flagList fs => fs.length

/-- The bot-side check of the text path: only in a guild, only when
botPermissions is a non-empty list, and only when the channel id
resolves; denies when the bot lacks one of the required flags there. -/
def botCheckDeniesText (w : BotWrapper) (c : Command) (msg : Message) : Bool :=
  match msg.guild with
  | none => false
  | some g =>
    c.botPermissions ≠ [] &&
      match g.getChannel msg.channelID with
      | none => false
      | some _ => !hasAll (g.permsFor msg.channelID w.botUserId) c.botPermissions

/-- The else branch of the text-path user check: when userPermissions has
a positive length and the message is in a guild whose channel resolves,
deny unless the author has every resolved flag. -/
def textElseBranch (msg : Message) (len : Nat) (flags : List String) : Bool :=
  match msg.guild with
  | none => false
  | some g =>
    if len > 0 then
      match g.getChannel msg.channelID with
      | none => false
      | some _ => !hasAll (g.permsFor msg.channelID msg.authorId) flags
    else false

/-- The user-side check of the text path.  Configured owners skip the
whole block.  BOT_OWNER always denies; GUILD_OWNER denies when a guild
is present and its owner is not the author, and otherwise falls through
to the else branch exactly as the source string does (length eleven,
resolving as the flag name GUILD_OWNER); a flag list falls through to
the else branch directly. -/
def userCheckDeniesText (w : BotWrapper) (c : Command) (msg : Message) : Bool :=
  match c.userPermissions with
  | none => false
  | some up =>
    if w.owners.contains msg.authorId then false
    else
      match up with
      | .BOT_OWNER => true
      | .GUILD_OWNER =>
        match msg.guild with
        | some g =>
          if g.ownerID ≠ msg.authorId then true
          else textElseBranch msg (upLength .GUILD_OWNER) (upFlagNames .GUILD_OWNER)
        | none => textElseBranch msg (upLength .GUILD_OWNER) (upFlagNames .GUILD_OWNER)
      | .flagList fs => textElseBranch msg (upLength (.flagList fs)) fs

/-! ## Text-message dispatch (handleMessage) -/

/-- handleMessage: prefix (or bot-mention) gate, strip it, collapse
whitespace and split into command name and raw tokens, look the command
up, run the two permission checks, then parse and invoke.  Stripping the
matched prefix is modelled as dropping its length, which agrees with the
source replace-first-occurrence because the gate just established the
content starts with it. -/
def handleMessage (w : BotWrapper) (msg : Message) : DispatchOutcome :=
  if w.pfx ≠ "" && !chPrefix w.pfx.toList msg.content.toList then .ignored
  else if w.pfx = "" && !chPrefix w.botMention.toList msg.content.toList then .ignored
  else
    let stripped :=
      if w.pfx ≠ "" then msg.content.toList.drop w.pfx.toList.length
      else msg.content.toList.drop w.botMention.toList.length
    let parts := tokenizeWords stripped
    let cmd := match parts with | [] => "" | c :: _ => c
    let args := match parts with | [] => ([] : List String) | _ :: r => r
    match mapGet w.commands cmd with
    | none => .ignored
    | some c =>
      if botCheckDeniesText w c msg then .botPermissionDenied
      else if userCheckDeniesText w c msg then .userPermissionDenied
      else
        match parseArguments w c args msg.guild with
        | some vs => .invoked vs
        | none => .parseFailed

/-! ## Slash dispatch (handleSlashInteraction) -/

/-- Result of the slash-path user check: proceed, deny, or crash (the
GUILD_OWNER comparison reads interaction.guild.ownerID without a guard,
so outside a guild it throws). -/
inductive SlashPermResult where
  | proceed | deny | crash
deriving DecidableEq

/-- The user-side check of the slash path, a single three-disjunct
condition evaluated left to right: BOT_OWNER; GUILD_OWNER with an owner
mismatch (crashing when no guild is present); then the length-positive
has-check against the resolved flag names (which for the guild owner
personally resolves the sentinel name, as in the text path). -/
def userCheckSlash (w : BotWrapper) (c : Command) (i : Interaction) :
    SlashPermResult :=
  match c.userPermissions with
  | none => .proceed
  | some up =>
    if w.owners.contains i.userId then .proceed
    else
      match up with
      | .BOT_OWNER => .deny
      | .GUILD_OWNER =>
        match i.guild with
        | none => .crash
        | some g =>
          if g.ownerID ≠ i.userId then .deny
          else if upLength .GUILD_OWNER > 0 &&
              !hasAll (i.channelPermsFor i.userId) (upFlagNames .GUILD_OWNER) then .deny
          else .proceed
      | .flagList fs =>
        if fs.length > 0 && !hasAll (i.channelPermsFor i.userId) fs then .deny
        else .proceed

/-- The token re-serialization loop of handleSlashInteraction: walk the
interaction options with a counter into the local argument schema; when
the schema has an entry at the counter, serialize the option value into
the textual form of that entry type (user and channel mentions with
their closing angle bracket, the role mention without one, exactly as
the source writes it; every other type by its string form); options
beyond the schema are dropped. -/
def serializeOptions (c : Command) : List String → Nat → List String
  | [], _ => []
  | v :: rest, k =>
    match c.arguments.get? k with
    | none => serializeOptions c rest (k + 1)
    | some d =>
      let tok :=
        match d.type with
        | .user => "<@!" ++ v ++ ">"
        | .channel => "<#" ++ v ++ ">"
        | .role => "<@&" ++ v
        | _ => v
      tok :: serializeOptions c rest (k + 1)

/-- handleSlashInteraction: look the command up, bot-side check against
the interaction channel, user-side check, re-serialize the typed options
into raw tokens, then parse and invoke. -/
def handleSlashInteraction (w : BotWrapper) (i : Interaction) :
    DispatchOutcome :=
  match mapGet w.commands i.name with
  | none => .ignored
  | some c =>
    if c.botPermissions ≠ [] &&
        !hasAll (i.channelPermsFor w.botUserId) c.botPermissions then
      .botPermissionDenied
    else
      match userCheckSlash w c i with
      | .deny => .userPermissionDenied
      | .crash => .crashed
      | .proceed =>
        let rawArgs := serializeOptions c i.options 0
        match parseArguments w c rawArgs i.guild with
        | some vs => .invoked vs
        | none => .parseFailed

/-! ## Registration (register, registerCommands) -/

/-- The builtin reload command (src/lib/commands/reload.ts). -/
def builtinReload : Command :=
  { name := "reload"
    description := "Reload all currently loaded commands."
    userPermissions := some .BOT_OWNER }

/-- The builtin help command (src/lib/commands/help side of the builtin
module): one optional string argument naming a command. -/
def builtinHelp : Command :=
  { name := "help"
    description := "Get a list of commands or details on a specific command."
    arguments := [{ name := "command"
                    description := "The command to get details on"
                    type := .string
                    optional := true }] }

/-- The loop body of registerCommands for one discovered candidate:
skip a duplicate name, skip more than one rest argument, skip a single
rest argument whose name differs from the name of the last declared
argument, otherwise tag the candidate with its group and insert it. -/
def loadCandidate (g : String) (m : List (String × Command)) (c : Command) :
    List (String × Command) :=
  if mapHas m c.name then m
  else
    let rs := c.arguments.filter fun a => a.rest
    if rs.length > 1 then m
    else if rs ≠ [] &&
        (rs.head?.map fun a => a.name) ≠ (c.arguments.getLast?.map fun a => a.name) then m
    else mapSet m c.name { c with group := some g }

/-- registerCommands: reset the command map, register the builtin group
and its two commands unconditionally, then walk every registered group
(insertion order, now including builtin) and feed each discovered
candidate through loadCandidate.  The directory walk and dynamic import
are the external discovery collaborator, modelled as a function from
group name to the candidate list (a missing directory yields the empty
list). -/
def registerCommands (groups : List (String × String))
    (discovered : String → List Command) :
    List (String × String) × List (String × Command) :=
  let groups2 := mapSet groups "builtin" "Built-in commands"
  let cmds0 := mapSet (mapSet [] "reload" { builtinReload with group := some "builtin" })
    "help" { builtinHelp with group := some "builtin" }
  let cmds := groups2.foldl
    (fun m gp => (discovered gp.1).foldl (loadCandidate gp.1) m) cmds0
  (groups2, cmds)

/-- The group-registration loop of register: keep a pair only when both
components are truthy and the name is not the reserved builtin. -/
def registerGroupsPhase (init : List (String × String))
    (gl : List (String × String)) : List (String × String) :=
  gl.foldl
    (fun m gp =>
      if gp.1 ≠ "" && gp.2 ≠ "" && gp.1 ≠ "builtin" then mapSet m gp.1 gp.2
      else m)
    init

/-- register: run the group loop from an empty map, then
registerCommands. -/
def register (gl : List (String × String))
    (discovered : String → List Command) :
    List (String × String) × List (String × Command) :=
  registerCommands (registerGroupsPhase [] gl) discovered

/-! ## Helper lemmas about the map model -/

theorem find?_keyReplace {V : Type} (m : List (String × V)) (k k2 : String) (v : V) :
    ((m.map fun q => if q.1 = k then (k, v) else q).find? fun q => q.1 = k2) =
      if k2 = k then (m.find? fun q => q.1 = k).map (fun _ => (k, v))
      else m.find? fun q => q.1 = k2 := by
  induction m with
  | nil => by_cases h : k2 = k <;> simp [h]
  | cons q m ih =>
    by_cases hq : q.1 = k
    · by_cases h : k2 = k
      · subst h; simp [List.find?, hq, ih]
      · have hks : ¬ ((k : String) = k2) := fun hh => h hh.symm
        have hq2 : ¬ (q.1 = k2) := by rw [hq]; exact hks
        simp [List.find?, hq, hks, hq2, ih, h]
    · by_cases h : k2 = k
      · subst h
        have hq2 : ¬ (q.1 = k2) := hq
        simp [List.find?, hq, hq2, ih]
      · by_cases hq2 : q.1 = k2
        · simp only [List.map_cons, if_neg hq]
          simp [List.find?, hq2, h]
        · simp [List.find?, hq, hq2, ih, h]

theorem mapGet_mapSet {V : Type} (m : List (String × V)) (k k2 : String) (v : V) :
    mapGet (mapSet m k v) k2 = if k2 = k then some v else mapGet m k2 := by
  unfold mapSet
  by_cases hm : mapHas m k = true
  · rw [if_pos hm]
    unfold mapGet
    rw [find?_keyReplace]
    by_cases h : k2 = k
    · have hsome : ((m.find? fun q => q.1 = k)).isSome := by
        rw [List.find?_isSome]
        simp only [mapHas, List.any_eq_true] at hm
        exact hm
      cases hf : m.find? fun q => q.1 = k
      · rw [hf] at hsome; simp at hsome
      · simp [h, hf]
    · simp [h]
  · rw [if_neg hm]
    unfold mapGet
    rw [List.find?_append]
    have hnone : (m.find? fun q => q.1 = k) = none := by
      rw [List.find?_eq_none]
      intro x hx hpx
      apply hm
      simp only [mapHas, List.any_eq_true]
      exact ⟨x, hx, hpx⟩
    by_cases h : k2 = k
    · subst h
      simp [hnone, List.find?]
    · have hks : ¬ ((k : String) = k2) := fun hh => h hh.symm
      simp only [List.find?, hks, decide_eq_true_eq, if_neg]
      cases m.find? fun q => q.1 = k2 <;> simp [hks, h]

theorem mapHas_iff_get {V : Type} (m : List (String × V)) (k : String) :
    mapHas m k = true ↔ (mapGet m k).isSome = true := by
  induction m with
  | nil => simp [mapHas, mapGet]
  | cons p m ih =>
    by_cases hp : p.1 = k
    · simp [mapHas, mapGet, List.find?, hp]
    · simp [mapHas, mapGet, List.find?, hp, ih]

theorem mapHas_mapSet {V : Type} (m : List (String × V)) (k k2 : String) (v : V) :
    mapHas (mapSet m k v) k2 = true ↔ (k2 = k ∨ mapHas m k2 = true) := by
  rw [mapHas_iff_get, mapHas_iff_get, mapGet_mapSet]
  by_cases h : k2 = k <;> simp [h]

/-! ## Helper lemmas about the parse loop -/

theorem parseLoop_cons (w : BotWrapper) (g : Option Guild) (args : List String)
    (d : ArgumentDefinition) (ds : List ArgumentDefinition) (p : Nat) :
    parseLoop w g args (d :: ds) p =
      match tokenAt args p with
      | none => some []
      | some tok =>
        match stepValue w g args p d tok with
        | none => none
        | some v => (parseLoop w g args ds (p + 1)).map (fun r => v :: r) := rfl

theorem parseLoop_length (w : BotWrapper) (g : Option Guild) (args : List String) :
    ∀ (schema : List ArgumentDefinition) (p : Nat) (res : List CommandArgument),
      parseLoop w g args schema p = some res → res.length ≤ schema.length := by
  intro schema
  induction schema with
  | nil =>
    intro p res h
    simp only [parseLoop, Option.some.injEq] at h
    subst h; simp
  | cons d ds ih =>
    intro p res h
    rw [parseLoop_cons] at h
    cases ht : tokenAt args p with
    | none =>
      simp only [ht, Option.some.injEq] at h
      subst h; simp
    | some tok =>
      simp only [ht] at h
      cases hs : stepValue w g args p d tok with
      | none => simp only [hs] at h; exact absurd h (by simp)
      | some v =>
        simp only [hs] at h
        cases hr : parseLoop w g args ds (p + 1) with
        | none => rw [hr] at h; simp at h
        | some r =>
          rw [hr] at h
          have h2 : v :: r = res := by simpa using h
          subst h2
          have := ih (p + 1) r hr
          simp only [List.length_cons]
          omega

theorem parseLoop_eq_nil_iff (w : BotWrapper) (g : Option Guild)
    (args : List String) (d : ArgumentDefinition) (ds : List ArgumentDefinition)
    (p : Nat) :
    parseLoop w g args (d :: ds) p = some [] ↔ tokenAt args p = none := by
  cases ht : tokenAt args p with
  | none => simp [parseLoop_cons, ht]
  | some tok =>
    simp only [parseLoop_cons, ht]
    cases hs : stepValue w g args p d tok with
    | none => simp
    | some v =>
      cases hr : parseLoop w g args ds (p + 1) <;> simp

/-! ## Helper lemmas about the permission checks -/

theorem userCheckDeniesText_owner (w : BotWrapper) (c : Command) (msg : Message)
    (h : w.owners.contains msg.authorId = true) :
    userCheckDeniesText w c msg = false := by
  have hm : msg.authorId ∈ w.owners := by simpa using h
  unfold userCheckDeniesText
  cases c.userPermissions with
  | none => rfl
  | some up => simp [hm]

theorem userCheckSlash_owner (w : BotWrapper) (c : Command) (i : Interaction)
    (h : w.owners.contains i.userId = true) :
    userCheckSlash w c i = .proceed := by
  have hm : i.userId ∈ w.owners := by simpa using h
  unfold userCheckSlash
  cases c.userPermissions with
  | none => rfl
  | some up => simp [hm]

theorem botCheckDeniesText_empty (w : BotWrapper) (c : Command) (msg : Message)
    (h : c.botPermissions = []) :
    botCheckDeniesText w c msg = false := by
  unfold botCheckDeniesText
  cases msg.guild <;> simp [h]

/-! ## Helper lemmas about registration -/

theorem loadCandidate_preserve (g : String) (m : List (String × Command))
    (c : Command) (k : String) (h : mapHas m k = true) :
    mapGet (loadCandidate g m c) k = mapGet m k ∧
      mapHas (loadCandidate g m c) k = true := by
  have hzeta : loadCandidate g m c =
      if mapHas m c.name then m
      else if (c.arguments.filter fun a => a.rest).length > 1 then m
      else if (c.arguments.filter fun a => a.rest) ≠ [] &&
          ((c.arguments.filter fun a => a.rest).head?.map fun a => a.name)
            ≠ (c.arguments.getLast?.map fun a => a.name) then m
      else mapSet m c.name { c with group := some g } := rfl
  rw [hzeta]
  by_cases hc : mapHas m c.name = true
  · rw [if_pos hc]; exact ⟨rfl, h⟩
  · rw [if_neg hc]
    have hne : ¬ (k = c.name) := fun he => hc (he ▸ h)
    split
    · exact ⟨rfl, h⟩
    · split
      · exact ⟨rfl, h⟩
      · refine ⟨?_, ?_⟩
        · rw [mapGet_mapSet, if_neg hne]
        · exact (mapHas_mapSet m c.name k _).mpr (Or.inr h)

theorem foldl_loadCandidate_preserve (g : String) (cs : List Command) :
    ∀ (m : List (String × Command)) (k : String), mapHas m k = true →
      mapGet (cs.foldl (loadCandidate g) m) k = mapGet m k ∧
        mapHas (cs.foldl (loadCandidate g) m) k = true := by
  induction cs with
  | nil => intro m k h; exact ⟨rfl, h⟩
  | cons c cs ih =>
    intro m k h
    simp only [List.foldl_cons]
    obtain ⟨h1, h2⟩ := loadCandidate_preserve g m c k h
    obtain ⟨h3, h4⟩ := ih (loadCandidate g m c) k h2
    exact ⟨h3.trans h1, h4⟩

theorem groupsFold_preserve (disc : String → List Command)
    (gl : List (String × String)) :
    ∀ (m : List (String × Command)) (k : String), mapHas m k = true →
      mapGet (gl.foldl (fun m gp => (disc gp.1).foldl (loadCandidate gp.1) m) m) k
          = mapGet m k ∧
        mapHas (gl.foldl (fun m gp => (disc gp.1).foldl (loadCandidate gp.1) m) m) k
          = true := by
  induction gl with
  | nil => intro m k h; exact ⟨rfl, h⟩
  | cons gp gl ih =>
    intro m k h
    simp only [List.foldl_cons]
    obtain ⟨h1, h2⟩ := foldl_loadCandidate_preserve gp.1 (disc gp.1) m k h
    obtain ⟨h3, h4⟩ := ih ((disc gp.1).foldl (loadCandidate gp.1) m) k h2
    exact ⟨h3.trans h1, h4⟩

theorem registerGroupsPhase_builtin (gl : List (String × String)) :
    ∀ init, mapGet (registerGroupsPhase init gl) "builtin" = mapGet init "builtin" := by
  induction gl with
  | nil => intro init; rfl
  | cons gp gl ih =>
    intro init
    show mapGet (registerGroupsPhase _ gl) "builtin" = _
    rw [ih]
    dsimp only
    split
    · rename_i hcond
      simp only [Bool.and_eq_true, decide_eq_true_eq] at hcond
      rw [mapGet_mapSet, if_neg (fun he => hcond.2 he.symm)]
    · rfl

/-! ## Further permission-check lemmas (guild-owner requirement) -/

theorem userCheckDeniesText_guildOwner (w : BotWrapper) (c : Command)
    (msg : Message) (g : Guild)
    (hup : c.userPermissions = some .GUILD_OWNER)
    (hnot : w.owners.contains msg.authorId = false)
    (hg : msg.guild = some g)
    (hmm : g.ownerID ≠ msg.authorId) :
    userCheckDeniesText w c msg = true := by
  have hm : msg.authorId ∉ w.owners := by simpa using hnot
  unfold userCheckDeniesText
  rw [hup]
  simp [hm, hg, hmm]

theorem userCheckSlash_guildOwner (w : BotWrapper) (c : Command)
    (i : Interaction) (g : Guild)
    (hup : c.userPermissions = some .GUILD_OWNER)
    (hnot : w.owners.contains i.userId = false)
    (hg : i.guild = some g)
    (hmm : g.ownerID ≠ i.userId) :
    userCheckSlash w c i = .deny := by
  have hm : i.userId ∉ w.owners := by simpa using hnot
  unfold userCheckSlash
  rw [hup]
  simp [hm, hg, hmm]

/-! ## Concrete objects used by the counterexamples and witnesses -/

/-- A wrapper with no configuration, for direct parser calls. -/
def wEx : BotWrapper := { owners := [] }

/-- A plain string argument definition. -/
def strDef : ArgumentDefinition :=
  { name := "s", description := "", type := .string }

/-- A plain number argument definition. -/
def numDef : ArgumentDefinition :=
  { name := "x", description := "", type := .number }

/-- A number argument restricted to the literal set 1, 2, 4. -/
def oneOf124Def : ArgumentDefinition :=
  { name := "x", description := "", type := .number
    oneOf := [.vnum (.fin 1), .vnum (.fin 2), .vnum (.fin 4)] }

/-- A command with the single oneOf-124 number argument. -/
def oneOf124Cmd : Command :=
  { name := "num", description := "d", arguments := [oneOf124Def] }

/-- A rest-marked string argument named a. -/
def restFirstDef : ArgumentDefinition :=
  { name := "a", description := "", type := .string, rest := true }

/-- A plain string argument that shares the name a. -/
def dupLastDef : ArgumentDefinition :=
  { name := "a", description := "", type := .string }

/-- A command whose rest argument comes first but shares its name with
the last argument. -/
def badCmd : Command :=
  { name := "bad", description := "d", arguments := [restFirstDef, dupLastDef] }

/-- Discovery environment offering badCmd in group g. -/
def env4 : String → List Command := fun gn => if gn = "g" then [badCmd] else []

/-- A command whose rest argument comes first, followed by a
differently-named plain string argument. -/
def restNotLastCmd : Command :=
  { name := "rnl", description := "d"
    arguments := [restFirstDef, { name := "b", description := "", type := .string }] }

/-- A command with two rest arguments. -/
def twoRestCmd : Command :=
  { name := "tworest", description := "d"
    arguments := [restFirstDef,
                  { name := "b", description := "", type := .string, rest := true }] }

/-- A command with one required string argument. -/
def reqStrCmd : Command :=
  { name := "req", description := "d", arguments := [strDef] }

/-- A string argument whose oneOf array mixes a string and a number. -/
def mixedStrDef : ArgumentDefinition :=
  { name := "m", description := "", type := .string
    oneOf := [.vstr "a", .vnum (.fin 1)] }

/-- A number argument whose oneOf array mixes a number and a string. -/
def mixedNumDef : ArgumentDefinition :=
  { name := "m", description := "", type := .number
    oneOf := [.vnum (.fin 1), .vstr "a"] }

/-- Commands carrying the mixed oneOf arguments. -/
def mixedStrCmd : Command :=
  { name := "mixs", description := "d", arguments := [mixedStrDef] }

def mixedNumCmd : Command :=
  { name := "mixn", description := "d", arguments := [mixedNumDef] }

/-- A guild in which every role exists and every channel is a guild text
channel, with empty permission sets. -/
def gC1 : Guild :=
  { ownerID := "o", hasRole := fun _ => true, getChannel := fun _ => some true
    permsFor := fun _ _ => [] }

/-- A command taking a single role argument. -/
def roleCmd : Command :=
  { name := "giverole", description := "d"
    arguments := [{ name := "r", description := "", type := .role }] }

/-- Wrapper and interaction delivering a valid role option to roleCmd. -/
def wC1 : BotWrapper := { owners := [], commands := [("giverole", roleCmd)] }

def iC1 : Interaction :=
  { name := "giverole", userId := "u", guild := some gC1, options := ["5"] }

/-- A guild-owner-restricted command with no arguments. -/
def lockCmd : Command :=
  { name := "lock", description := "d", userPermissions := some .GUILD_OWNER }

/-- Wrapper with prefix bang, owner boss, and the lock command. -/
def wC2 : BotWrapper :=
  { owners := ["boss"], pfx := "!", commands := [("lock", lockCmd)] }

/-- A direct message (no guild) invoking lock, from a non-owner. -/
def msgDM : Message := { content := "!lock", authorId := "alice" }

/-- A guild owned by king, with no resolvable channels. -/
def gK : Guild :=
  { ownerID := "king", hasRole := fun _ => false, getChannel := fun _ => none
    permsFor := fun _ _ => [] }

/-- The same invocation made inside the guild of king. -/
def msgG : Message := { content := "!lock", authorId := "alice", guild := some gK }

/-- The slash-path version of the guild invocation. -/
def iG : Interaction := { name := "lock", userId := "alice", guild := some gK }

/-- A bot-permission-restricted, bot-owner-only command. -/
def ownCmd : Command :=
  { name := "own", description := "d", botPermissions := ["SEND_MESSAGES"]
    userPermissions := some .BOT_OWNER }

/-- Wrapper whose configured owner is boss, registering ownCmd. -/
def w9 : BotWrapper :=
  { owners := ["boss"], pfx := "!", botUserId := "bot"
    commands := [("own", ownCmd)] }

/-- A guild whose channels all resolve but grant no permissions. -/
def g9 : Guild :=
  { ownerID := "x", hasRole := fun _ => false, getChannel := fun _ => some true
    permsFor := fun _ _ => [] }

/-- The configured owner invoking ownCmd in that guild. -/
def msg9 : Message :=
  { content := "!own", authorId := "boss", channelID := "ch", guild := some g9 }

/-- The configured owner invoking ownCmd over slash. -/
def i9 : Interaction := { name := "own", userId := "boss" }

/-! ## Claim C1 -/

/-- C1: the claim states that every slash option is re-serialized into a
token the shared Argument Parser accepts whenever the option is valid.
The code contradicts this for role options: the reconstructed role token
lacks the closing angle bracket, so the role mention pattern rejects it
and dispatch ends in a parse failure even though the role resolves; the
properly closed token (as the text path would carry it) parses fine.
This evaluates the code at the failing input. -/
theorem C1_role_serialization_breaks_parse :
    serializeOptions roleCmd ["5"] 0 = ["<@&5"] ∧
    roleMentionCapture "<@&5" = none ∧
    parseArguments wC1 roleCmd ["<@&5"] (some gC1) = none ∧
    handleSlashInteraction wC1 iC1 = DispatchOutcome.parseFailed ∧
    parseArguments wC1 roleCmd ["<@&5>"] (some gC1) =
      some [CommandArgument.role "5"] :=
  ⟨rfl, rfl, rfl, rfl, rfl⟩

/-! ## Claim C2 -/

/-- C2 counterexample: the claim says a non-owner invoking a guild-owner
command is always denied, including outside any guild.  In a direct
message (no guild) the text path skips the guild-owner comparison, the
flag-list branch is also skipped for lack of a guild, and the handler is
invoked. -/
theorem C2_counterexample :
    lockCmd.userPermissions = some UserPermissions.GUILD_OWNER ∧
    msgDM.guild = none ∧
    wC2.owners.contains msgDM.authorId = false ∧
    handleMessage wC2 msgDM = DispatchOutcome.invoked [] :=
  ⟨rfl, rfl, rfl, rfl⟩

/-- C2 (amended): a non-owner invoking a guild-owner command inside a
guild they do not own is denied with a user-visible message and no
handler invocation, on both dispatch paths.  (Outside any guild the text
path proceeds to parsing instead, per the counterexample, and the slash
path throws.) -/
theorem C2_guild_owner_denied_in_guild :
    (∀ (w : BotWrapper) (msg : Message) (g : Guild) (c : Command)
        (cmd : String) (args : List String),
      w.pfx ≠ "" →
      chPrefix w.pfx.toList msg.content.toList = true →
      tokenizeWords (msg.content.toList.drop w.pfx.toList.length) = cmd :: args →
      mapGet w.commands cmd = some c →
      c.botPermissions = [] →
      c.userPermissions = some .GUILD_OWNER →
      w.owners.contains msg.authorId = false →
      msg.guild = some g →
      g.ownerID ≠ msg.authorId →
      handleMessage w msg = DispatchOutcome.userPermissionDenied) ∧
    (∀ (w : BotWrapper) (i : Interaction) (g : Guild) (c : Command),
      mapGet w.commands i.name = some c →
      c.botPermissions = [] →
      c.userPermissions = some .GUILD_OWNER →
      w.owners.contains i.userId = false →
      i.guild = some g →
      g.ownerID ≠ i.userId →
      handleSlashInteraction w i = DispatchOutcome.userPermissionDenied) := by
  constructor
  · intro w msg g c cmd args hpfx hch htoks hlook hbot hup hnot hg hmm
    have htoks2 : tokenizeWords (List.drop w.pfx.length msg.content.data) = cmd :: args := by
      simpa using htoks
    have hch2 : chPrefix w.pfx.data msg.content.data = true := by
      simpa using hch
    unfold handleMessage
    simp [hch2, hpfx, htoks2, hlook]
    rw [botCheckDeniesText_empty w c msg hbot]
    rw [userCheckDeniesText_guildOwner w c msg g hup hnot hg hmm]
    simp
  · intro w i g c hlook hbot hup hnot hg hmm
    unfold handleSlashInteraction
    rw [hlook]
    simp only [hbot]
    rw [userCheckSlash_guildOwner w c i g hup hnot hg hmm]
    simp

/-- C2 witness: both conjuncts applied to the concrete guild invocation
by alice in the guild of king. -/
theorem C2_witness :
    handleMessage wC2 msgG = DispatchOutcome.userPermissionDenied ∧
    handleSlashInteraction wC2 iG = DispatchOutcome.userPermissionDenied :=
  ⟨C2_guild_owner_denied_in_guild.1 wC2 msgG gK lockCmd "lock" []
      (by decide) (by decide) (by decide) rfl rfl rfl (by decide) rfl (by decide),
    C2_guild_owner_denied_in_guild.2 wC2 iG gK lockCmd
      rfl rfl rfl (by decide) rfl (by decide)⟩

/-! ## Claim C3 -/

/-- C3: a number-typed argument consumes exactly one token (the walk
continues at pointer plus one), a token parseFloat maps to NaN fails the
whole parse, a declared all-number oneOf set rejects parsed values
outside it and accepts members, and with set 1, 2, 4 the token 3 is
rejected while 2 produces the numeric value 2. -/
theorem C3_number_argument :
    (∀ (w : BotWrapper) (g : Option Guild) (args : List String) (p : Nat)
        (d : ArgumentDefinition) (ds : List ArgumentDefinition) (tok : String),
      d.type = .number → tokenAt args p = some tok → jsParseFloat tok = none →
      parseLoop w g args (d :: ds) p = none) ∧
    (∀ (w : BotWrapper) (g : Option Guild) (args : List String) (p : Nat)
        (d : ArgumentDefinition) (ds : List ArgumentDefinition) (tok : String)
        (n : JsNum),
      d.type = .number → tokenAt args p = some tok → jsParseFloat tok = some n →
      d.oneOf ≠ [] → isNumberArray d.oneOf = true →
      d.oneOf.contains (.vnum n) = false →
      parseLoop w g args (d :: ds) p = none) ∧
    (∀ (w : BotWrapper) (g : Option Guild) (args : List String) (p : Nat)
        (d : ArgumentDefinition) (ds : List ArgumentDefinition) (tok : String)
        (n : JsNum),
      d.type = .number → tokenAt args p = some tok → jsParseFloat tok = some n →
      d.oneOf ≠ [] → isNumberArray d.oneOf = true →
      d.oneOf.contains (.vnum n) = true →
      parseLoop w g args (d :: ds) p =
        (parseLoop w g args ds (p + 1)).map (fun r => .num n :: r)) ∧
    (∀ (w : BotWrapper) (g : Option Guild) (args : List String) (p : Nat)
        (d : ArgumentDefinition) (ds : List ArgumentDefinition) (tok : String)
        (n : JsNum),
      d.type = .number → tokenAt args p = some tok → jsParseFloat tok = some n →
      d.oneOf = [] →
      parseLoop w g args (d :: ds) p =
        (parseLoop w g args ds (p + 1)).map (fun r => .num n :: r)) ∧
    parseArguments wEx oneOf124Cmd ["3"] none = none ∧
    parseArguments wEx oneOf124Cmd ["2"] none =
      some [CommandArgument.num (.fin 2)] := by
  refine ⟨?_, ?_, ?_, ?_, by decide, by decide⟩
  · intro w g args p d ds tok hd ht hn
    simp [parseLoop_cons, ht, stepValue, hd, hn]
  · intro w g args p d ds tok n hd ht hn hne harr hcont
    have hc2 : JsVal.vnum n ∉ d.oneOf := by simpa using hcont
    simp [parseLoop_cons, ht, stepValue, hd, hn, hne, harr, hc2]
  · intro w g args p d ds tok n hd ht hn hne harr hcont
    have hc2 : JsVal.vnum n ∈ d.oneOf := by simpa using hcont
    simp [parseLoop_cons, ht, stepValue, hd, hn, hne, harr, hc2]
  · intro w g args p d ds tok n hd ht hn hempty
    simp [parseLoop_cons, ht, stepValue, hd, hn, hempty]

/-- C3 witness: the four universal parts applied at concrete inputs. -/
theorem C3_witness :
    parseLoop wEx none ["b"] [numDef] 0 = none ∧
    parseLoop wEx none ["3"] [oneOf124Def] 0 = none ∧
    parseLoop wEx none ["2"] [oneOf124Def] 0 =
      (parseLoop wEx none ["2"] [] 1).map
        (fun r => CommandArgument.num (.fin 2) :: r) ∧
    parseLoop wEx none ["7"] [numDef] 0 =
      (parseLoop wEx none ["7"] [] 1).map
        (fun r => CommandArgument.num (.fin 7) :: r) :=
  ⟨C3_number_argument.1 wEx none ["b"] 0 numDef [] "b" rfl rfl (by decide),
   C3_number_argument.2.1 wEx none ["3"] 0 oneOf124Def [] "3" (.fin 3)
     rfl rfl (by decide) (by decide) (by decide) (by decide),
   C3_number_argument.2.2.1 wEx none ["2"] 0 oneOf124Def [] "2" (.fin 2)
     rfl rfl (by decide) (by decide) (by decide) (by decide),
   C3_number_argument.2.2.2.1 wEx none ["7"] 0 numDef [] "7" (.fin 7)
     rfl rfl (by decide) rfl⟩

/-! ## Claim C4 -/

/-- C4 counterexample: the claim says a command whose single rest
argument is not the last declared argument is always rejected.  The code
compares only the names, so a non-last rest argument that shares its
name with the last declared argument passes registration and the command
is added to the registry. -/
theorem C4_counterexample :
    restFirstDef.rest = true ∧
    badCmd.arguments.get? 0 = some restFirstDef ∧
    badCmd.arguments.get? 1 = some dupLastDef ∧
    dupLastDef.rest = false ∧
    mapGet (register [("g", "grp")] env4).2 "bad" =
      some { badCmd with group := some "g" } :=
  ⟨rfl, rfl, rfl, rfl, by decide⟩

/-- Zeta-reduced form of loadCandidate, for case splitting. -/
theorem loadCandidate_eq (g : String) (m : List (String × Command)) (c : Command) :
    loadCandidate g m c =
      if mapHas m c.name then m
      else if (c.arguments.filter fun a => a.rest).length > 1 then m
      else if (c.arguments.filter fun a => a.rest) ≠ [] &&
          ((c.arguments.filter fun a => a.rest).head?.map fun a => a.name)
            ≠ (c.arguments.getLast?.map fun a => a.name) then m
      else mapSet m c.name { c with group := some g } := rfl

/-- C4 (amended): registration rejects (adds no entry for) a command
declaring more than one rest argument, and rejects a command whose
single rest argument has a name different from the name of the last
declared argument; when argument names are distinct this coincides with
rejecting every non-last rest argument, but a non-last rest argument
sharing the last argument name is accepted (see the counterexample). -/
theorem C4_rest_rules :
    (∀ (g : String) (m : List (String × Command)) (c : Command),
      1 < (c.arguments.filter fun a => a.rest).length →
      loadCandidate g m c = m) ∧
    (∀ (g : String) (m : List (String × Command)) (c : Command)
        (r : ArgumentDefinition),
      (c.arguments.filter fun a => a.rest) = [r] →
      some r.name ≠ (c.arguments.getLast?.map fun a => a.name) →
      loadCandidate g m c = m) := by
  constructor
  · intro g m c h1
    rw [loadCandidate_eq]
    by_cases hc : mapHas m c.name = true
    · rw [if_pos hc]
    · rw [if_neg hc, if_pos h1]
  · intro g m c r hr hname
    rw [loadCandidate_eq]
    by_cases hc : mapHas m c.name = true
    · rw [if_pos hc]
    · rw [if_neg hc, hr]
      simp [hname]

/-- C4 witness: both rejection rules applied to concrete commands. -/
theorem C4_witness :
    loadCandidate "g" [] twoRestCmd = [] ∧
    loadCandidate "g" [] restNotLastCmd = [] :=
  ⟨C4_rest_rules.1 "g" [] twoRestCmd (by decide),
   C4_rest_rules.2 "g" [] restNotLastCmd restFirstDef (by decide) (by decide)⟩

/-! ## Claim C5 -/

/-- C5 counterexample: the claim says a rest argument stops consumption
of further schema entries.  The loop in fact continues: with the schema
rest-then-string and tokens x y, the entry after the rest argument
contributes a second value (re-consuming the token y that the joined
rest value already contains). -/
theorem C5_counterexample :
    restNotLastCmd.arguments.get? 0 = some restFirstDef ∧
    restFirstDef.rest = true ∧
    restNotLastCmd.arguments.length = 2 ∧
    parseArguments wEx restNotLastCmd ["x", "y"] none =
      some [.str "x y", .str "y"] :=
  ⟨rfl, rfl, rfl, by decide⟩

/-- C5 (amended): a rest-marked string argument pushes the join of all
remaining tokens (space separated), after which the walk advances by one
token position and continues with the remaining schema entries; entries
declared after the rest argument can therefore still contribute values.
When the rest argument is the last schema entry — the shape registration
admits for distinctly-named arguments — the result is exactly the joined
value and nothing further. -/
theorem C5_rest_join :
    (∀ (w : BotWrapper) (g : Option Guild) (args : List String) (p : Nat)
        (d : ArgumentDefinition) (ds : List ArgumentDefinition) (tok : String),
      d.type = .string → d.rest = true → tokenAt args p = some tok →
      parseLoop w g args (d :: ds) p =
        (parseLoop w g args ds (p + 1)).map
          (fun r => .str (joinSpace (args.drop p)) :: r)) ∧
    (∀ (w : BotWrapper) (g : Option Guild) (args : List String) (p : Nat)
        (d : ArgumentDefinition) (tok : String),
      d.type = .string → d.rest = true → tokenAt args p = some tok →
      parseLoop w g args [d] p = some [.str (joinSpace (args.drop p))]) := by
  constructor
  · intro w g args p d ds tok hd hrest ht
    simp [parseLoop_cons, ht, stepValue, hd, hrest]
  · intro w g args p d tok hd hrest ht
    simp [parseLoop_cons, ht, stepValue, hd, hrest, parseLoop]

/-- C5 witness: both parts applied at the concrete schema and tokens. -/
theorem C5_witness :
    parseLoop wEx none ["x", "y"] [restFirstDef, strDef] 0 =
      (parseLoop wEx none ["x", "y"] [strDef] 1).map
        (fun r => CommandArgument.str (joinSpace (["x", "y"].drop 0)) :: r) ∧
    parseLoop wEx none ["x", "y"] [restFirstDef] 0 =
      some [CommandArgument.str (joinSpace (["x", "y"].drop 0))] :=
  ⟨C5_rest_join.1 wEx none ["x", "y"] 0 restFirstDef [strDef] "x" rfl rfl rfl,
   C5_rest_join.2 wEx none ["x", "y"] 0 restFirstDef "x" rfl rfl rfl⟩

/-! ## Claim C6 -/

/-- C6 counterexample: the claim says the walk stops exactly when no raw
token remains.  An empty-string token at the current position also stops
it: a schema with one required string argument and the token list
holding one empty string yields the empty result with no error, though a
token remains. -/
theorem C6_counterexample :
    reqStrCmd.arguments.length = 1 ∧
    strDef.optional = false ∧
    ([""] : List String).get? 0 = some "" ∧
    parseArguments wEx reqStrCmd [""] none = some [] :=
  ⟨rfl, rfl, rfl, by decide⟩

/-- C6 (amended): the walk stops, omitting all remaining schema entries
from the result with no error, exactly when the token at the current
position is absent or is the empty string (the JS falsiness test); in
particular a successful result is never longer than the schema. -/
theorem C6_stop_condition :
    (∀ (args : List String) (p : Nat),
      tokenAt args p = none ↔ (args.get? p = none ∨ args.get? p = some "")) ∧
    (∀ (w : BotWrapper) (g : Option Guild) (args : List String)
        (d : ArgumentDefinition) (ds : List ArgumentDefinition) (p : Nat),
      parseLoop w g args (d :: ds) p = some [] ↔ tokenAt args p = none) ∧
    (∀ (w : BotWrapper) (g : Option Guild) (args : List String)
        (schema : List ArgumentDefinition) (p : Nat) (res : List CommandArgument),
      parseLoop w g args schema p = some res → res.length ≤ schema.length) := by
  refine ⟨?_, parseLoop_eq_nil_iff, parseLoop_length⟩
  intro args p
  unfold tokenAt
  cases h : args.get? p with
  | none => simp
  | some s =>
    by_cases hs : s = ""
    · subst hs; simp
    · simp [hs]

/-- C6 witness: the length bound applied at a concrete successful parse. -/
theorem C6_witness :
    parseLoop wEx none ["x"] [strDef] 0 = some [CommandArgument.str "x"] ∧
    [CommandArgument.str "x"].length ≤ [strDef].length :=
  ⟨by decide,
   C6_stop_condition.2.2 wEx none ["x"] [strDef] 0 [CommandArgument.str "x"]
     (by decide)⟩

/-! ## Claim C7 -/

/-- C7 counterexample: the claim says parse accepts exactly the strings
matching the anchored grammar.  The implementation trims first, so a
string with leading whitespace that the grammar rejects is still
accepted. -/
theorem C7_counterexample :
    Duration.parse " 10m" = some { quantity := 10, period := .minute } ∧
    specDurationGrammar " 10m" = false :=
  ⟨by decide, by decide⟩

/-- C7 (amended): Duration.parse accepts exactly the strings whose
whitespace-trimmed form matches the grammar digits then one or two
lowercase letters with a known period suffix; parsing 10m yields
quantity 10, period minute, and 600000 total milliseconds, while abc and
10x yield no duration. -/
theorem C7_duration_parse :
    (∀ s : String, (Duration.parse s).isSome =
        specDurationGrammar (String.mk (jsTrimChars s.toList))) ∧
    Duration.parse "10m" = some { quantity := 10, period := .minute } ∧
    Duration.time { quantity := 10, period := .minute } = 600000 ∧
    Duration.parse "abc" = none ∧
    Duration.parse "10x" = none := by
  refine ⟨?_, by decide, by decide, by decide, by decide⟩
  intro s
  unfold Duration.parse specDurationGrammar
  have he : (String.mk (jsTrimChars s.toList)).toList = jsTrimChars s.toList := rfl
  rw [he]
  cases h : durationSplit (jsTrimChars s.toList) with
  | none => simp
  | some pr =>
    obtain ⟨ds, suf⟩ := pr
    cases he2 : enumFromValue (String.mk suf) <;> simp [he2]

/-! ## Claim C8 -/

/-- C8: for every load, the group loop never records a group named
builtin (the phase map has no such key), yet after registration the
builtin group is present with its fixed description, and the builtin
reload and help commands are registered unconditionally and are not
displaced by any same-named discovered command, for every input group
list and every discovery environment. -/
theorem C8_builtin_registration :
    ∀ (gl : List (String × String)) (disc : String → List Command),
      mapGet (register gl disc).1 "builtin" = some "Built-in commands" ∧
      mapGet (register gl disc).2 "reload" =
        some { builtinReload with group := some "builtin" } ∧
      mapGet (register gl disc).2 "help" =
        some { builtinHelp with group := some "builtin" } ∧
      mapGet (registerGroupsPhase [] gl) "builtin" = none := by
  intro gl disc
  refine ⟨?_, ?_, ?_, ?_⟩
  · show mapGet (mapSet (registerGroupsPhase [] gl) "builtin" "Built-in commands")
      "builtin" = _
    rw [mapGet_mapSet]
    simp
  · show mapGet ((mapSet (registerGroupsPhase [] gl) "builtin" "Built-in commands").foldl
        (fun m gp => (disc gp.1).foldl (loadCandidate gp.1) m)
        (mapSet (mapSet [] "reload" { builtinReload with group := some "builtin" })
          "help" { builtinHelp with group := some "builtin" })) "reload" = _
    obtain ⟨h1, _⟩ := groupsFold_preserve disc
      (mapSet (registerGroupsPhase [] gl) "builtin" "Built-in commands")
      (mapSet (mapSet [] "reload" { builtinReload with group := some "builtin" })
        "help" { builtinHelp with group := some "builtin" }) "reload" (by decide)
    rw [h1]
    decide
  · show mapGet ((mapSet (registerGroupsPhase [] gl) "builtin" "Built-in commands").foldl
        (fun m gp => (disc gp.1).foldl (loadCandidate gp.1) m)
        (mapSet (mapSet [] "reload" { builtinReload with group := some "builtin" })
          "help" { builtinHelp with group := some "builtin" })) "help" = _
    obtain ⟨h1, _⟩ := groupsFold_preserve disc
      (mapSet (registerGroupsPhase [] gl) "builtin" "Built-in commands")
      (mapSet (mapSet [] "reload" { builtinReload with group := some "builtin" })
        "help" { builtinHelp with group := some "builtin" }) "help" (by decide)
    rw [h1]
    decide
  · rw [registerGroupsPhase_builtin gl []]
    rfl

/-! ## Claim C9 -/

/-- C9: a dispatch (either path) whose invoking user is a configured
owner is never denied by the user-side permission check — in particular
not by a BOT_OWNER requirement — while the bot-side permission check is
still performed and can deny the dispatch, as the concrete conjuncts
show for an owner invoking a BOT_OWNER command that the bot lacks
channel permissions for. -/
theorem C9_owner_bypass :
    (∀ (w : BotWrapper) (msg : Message),
      w.owners.contains msg.authorId = true →
      handleMessage w msg ≠ DispatchOutcome.userPermissionDenied) ∧
    (∀ (w : BotWrapper) (i : Interaction),
      w.owners.contains i.userId = true →
      handleSlashInteraction w i ≠ DispatchOutcome.userPermissionDenied) ∧
    handleMessage w9 msg9 = DispatchOutcome.botPermissionDenied ∧
    w9.owners.contains msg9.authorId = true ∧
    mapGet w9.commands "own" = some ownCmd ∧
    ownCmd.userPermissions = some UserPermissions.BOT_OWNER := by
  refine ⟨?_, ?_, by decide, by decide, rfl, rfl⟩
  · intro w msg h
    unfold handleMessage
    dsimp only
    repeat' split
    all_goals first
      | (simp; done)
      | (rename_i hden
         rw [userCheckDeniesText_owner _ _ _ h] at hden
         simp at hden)
  · intro w i h
    unfold handleSlashInteraction
    dsimp only
    repeat' split
    all_goals first
      | (simp; done)
      | (rename_i hden
         rw [userCheckSlash_owner _ _ _ h] at hden
         simp at hden)

/-- C9 witness: both universal parts applied to the concrete owner boss. -/
theorem C9_witness :
    handleMessage w9 msg9 ≠ DispatchOutcome.userPermissionDenied ∧
    handleSlashInteraction w9 i9 ≠ DispatchOutcome.userPermissionDenied :=
  ⟨C9_owner_bypass.1 w9 msg9 (by decide),
   C9_owner_bypass.2.1 w9 i9 (by decide)⟩

/-! ## Claim C10 -/

/-- C10: the oneOf restriction on a string (number) argument is enforced
only when every element of the non-empty oneOf array is a string
(number); with a mixed-type array the membership check is skipped and
any token the base type accepts passes, while a homogeneous string array
still rejects non-members. -/
theorem C10_mixed_oneof_ignored :
    (∀ (w : BotWrapper) (g : Option Guild) (args : List String) (p : Nat)
        (d : ArgumentDefinition) (ds : List ArgumentDefinition) (tok : String),
      d.type = .string → d.rest = false → d.oneOf ≠ [] →
      isStringArray d.oneOf = false → tokenAt args p = some tok →
      parseLoop w g args (d :: ds) p =
        (parseLoop w g args ds (p + 1)).map (fun r => .str tok :: r)) ∧
    (∀ (w : BotWrapper) (g : Option Guild) (args : List String) (p : Nat)
        (d : ArgumentDefinition) (ds : List ArgumentDefinition) (tok : String)
        (n : JsNum),
      d.type = .number → d.oneOf ≠ [] → isNumberArray d.oneOf = false →
      tokenAt args p = some tok → jsParseFloat tok = some n →
      parseLoop w g args (d :: ds) p =
        (parseLoop w g args ds (p + 1)).map (fun r => .num n :: r)) ∧
    (∀ (w : BotWrapper) (g : Option Guild) (args : List String) (p : Nat)
        (d : ArgumentDefinition) (ds : List ArgumentDefinition) (tok : String),
      d.type = .string → d.rest = false → d.oneOf ≠ [] →
      isStringArray d.oneOf = true → d.oneOf.contains (.vstr tok) = false →
      tokenAt args p = some tok →
      parseLoop w g args (d :: ds) p = none) ∧
    parseArguments wEx mixedStrCmd ["zzz"] none =
      some [CommandArgument.str "zzz"] ∧
    parseArguments wEx mixedNumCmd ["7"] none =
      some [CommandArgument.num (.fin 7)] := by
  refine ⟨?_, ?_, ?_, by decide, by decide⟩
  · intro w g args p d ds tok hd hrest hne harr ht
    simp [parseLoop_cons, ht, stepValue, hd, hrest, hne, harr]
  · intro w g args p d ds tok n hd hne harr ht hn
    simp [parseLoop_cons, ht, stepValue, hd, hn, hne, harr]
  · intro w g args p d ds tok hd hrest hne harr hcont ht
    have hc2 : JsVal.vstr tok ∉ d.oneOf := by simpa using hcont
    simp [parseLoop_cons, ht, stepValue, hd, hrest, hne, harr, hc2]

/-- A string argument restricted to the homogeneous string set a, b. -/
def strOneOfDef : ArgumentDefinition :=
  { name := "c", description := "", type := .string
    oneOf := [.vstr "a", .vstr "b"] }

/-- C10 witness: the three universal parts applied at concrete inputs. -/
theorem C10_witness :
    parseLoop wEx none ["zzz"] [mixedStrDef] 0 =
      (parseLoop wEx none ["zzz"] [] 1).map
        (fun r => CommandArgument.str "zzz" :: r) ∧
    parseLoop wEx none ["7"] [mixedNumDef] 0 =
      (parseLoop wEx none ["7"] [] 1).map
        (fun r => CommandArgument.num (.fin 7) :: r) ∧
    parseLoop wEx none ["q"] [strOneOfDef] 0 = none :=
  ⟨C10_mixed_oneof_ignored.1 wEx none ["zzz"] 0 mixedStrDef [] "zzz"
     rfl rfl (by decide) (by decide) rfl,
   C10_mixed_oneof_ignored.2.1 wEx none ["7"] 0 mixedNumDef [] "7" (.fin 7)
     rfl (by decide) (by decide) rfl (by decide),
   C10_mixed_oneof_ignored.2.2.1 wEx none ["q"] 0 strOneOfDef [] "q"
     rfl rfl (by decide) (by decide) (by decide) rfl⟩

end Harmonica
